import Mathlib

/-!
Verification development for the rules engine of the share.app repository.

The definitions below are shallow embeddings of the JavaScript sources:

* `src/core/Models.js` — the content model and `SocialAdapterContent.validate`;
* `src/core/RulesEngine.js` — `parseDelay`, `matchesConditions`,
  `evaluateRules`, `executeTasks`;
* `src/core/SocialAdapter.js` — the base adapter protocol.

Modelling conventions:

* JavaScript optional object fields become `Option` values; `none` stands for
  an absent or `undefined` field.  The JS truthiness of an optional string
  field (absent, `undefined` and `""` are all falsy) is captured by `truthy`.
* JS numbers that the engine treats as millisecond delays are modelled as
  `Int` (the claims only exercise integral values).
* `new Date()` inside `parseDelay` is modelled by an explicit `Clock`
  argument carrying the current day of week (`Date.getDay()`, 0 = Sunday)
  and the number of milliseconds elapsed since local midnight.  Civil time
  is modelled as uniform (no DST jumps), so
  `target.getTime() - now.getTime()` becomes plain arithmetic on these two
  fields.
* Thrown exceptions become `Except` errors; `async` functions whose awaited
  results are deterministic are modelled as pure functions.  `Promise.all`
  resolves to the array of results in submission order, which is how the
  deferred lane of `executeTasks` is rendered.
* JS objects produced by `executeTasks` (`{ ...result, ruleName, adapter }`)
  are modelled as ordered association lists of string keys so that the key
  names themselves are part of the model (`ResultObj`, `jsSet`).
-/

/-- Content item, per the fields read by `SocialAdapterContent.validate`
(`src/core/Models.js` lines 189-201) and `matchesConditions`
(`src/core/RulesEngine.js` lines 76-99): `text`, the four media fields,
`tags`, `type`, `lang`.  `none` models an absent/`undefined` field. -/
structure Content where
  text : Option String := none
  photo : Option String := none
  video : Option String := none
  document : Option String := none
  audio : Option String := none
  tags : Option (List String) := none
  type : Option String := none
  lang : Option String := none
  deriving Repr, DecidableEq

/-- JS truthiness of an optional string field: present and non-empty.
(`undefined` and `""` are falsy; any other string is truthy.) -/
def truthy : Option String → Bool
  | some s => !(s == "")
  | none => false

/-- ASCII digit test, the `\d` class of the source regexes. -/
def isDigitChar (c : Char) : Bool := '0' ≤ c && c ≤ '9'

/-- ASCII whitespace test, the `\s` class of the source regexes restricted to
the ASCII range (the claims never exercise Unicode whitespace). -/
def isSpaceChar (c : Char) : Bool :=
  c == ' ' || c == '\t' || c == '\n' || c == '\r'

/-- `parseInt(digits, 10)` on an all-digit string. -/
def digitsToNat (l : List Char) : Nat :=
  l.foldl (fun a c => a * 10 + (c.toNat - 48)) 0

/-- `String.prototype.trim()` restricted to ASCII whitespace: strip leading
and trailing whitespace characters. -/
def jsTrim (s : String) : String :=
  String.mk (((s.toList.dropWhile isSpaceChar).reverse.dropWhile isSpaceChar).reverse)

/-- The single validation message pushed by `SocialAdapterContent.validate`
(`src/core/Models.js` lines 195-197). -/
def validateMsg : String :=
  "content must have at least text or one media field (photo, video, document, audio)"

/-- Result shape of `SocialAdapterContent.validate`: `{ valid, errors }`. -/
structure ValidationResult where
  valid : Bool
  errors : List String
  deriving Repr, DecidableEq

/-- `raw.text && raw.text.trim().length > 0` (`src/core/Models.js` line 191):
the text field is truthy and its trimmed form is non-empty. -/
def hasText (raw : Content) : Bool :=
  match raw.text with
  | some t => !(t == "") && !((jsTrim t).isEmpty)
  | none => false

/-- `!!(raw.photo || raw.video || raw.document || raw.audio)`
(`src/core/Models.js` line 192). -/
def hasMediaV (raw : Content) : Bool :=
  truthy raw.photo || truthy raw.video || truthy raw.document || truthy raw.audio

/-- `SocialAdapterContent.validate` (`src/core/Models.js` lines 189-201):
pushes `validateMsg` when the content has neither text nor media;
`valid` is `errors.length === 0`. -/
def SocialAdapterContent.validate (raw : Content) : ValidationResult :=
  let errors := if !(hasText raw) && !(hasMediaV raw) then [validateMsg] else []
  { valid := errors.length == 0, errors := errors }

/-- The `if` block of a rule (`src/core/RulesEngine.js` lines 7-12):
optional `tags`, `type`, `lang`, `hasMedia` conditions.  The source also
accepts a bare (non-array) tag and wraps it in a singleton array; the
embedding represents that case as a one-element list. -/
structure Conditions where
  tags : Option (List String) := none
  type : Option String := none
  lang : Option String := none
  hasMedia : Option Bool := none
  deriving Repr, DecidableEq

/-- `Object.keys(conditions).length === 0` for the embedded condition set:
no condition field is present. -/
def Conditions.isEmpty (c : Conditions) : Bool :=
  c.tags == none && c.type == none && c.lang == none && c.hasMedia == none

/-- `matchesConditions` (`src/core/RulesEngine.js` lines 76-99).
The outer `Option` models a missing `if` block (`!conditions`).
Field checks mirror the source, in order:
* `if (conditions.tags)` — any present array is truthy (even `[]`), and the
  check is `required.some(tag => contentTags.includes(tag))` over
  `content.tags || []`;
* `if (conditions.type)` / `if (conditions.lang)` — skipped when the value
  is falsy (absent or `""`), otherwise strict equality with the content
  field;
* `if (conditions.hasMedia != null)` — compares the requested boolean with
  `!!(content.photo || content.document || content.video)`; note the source
  does not consult `content.audio` here. -/
def matchesConditions (content : Content) (conditions : Option Conditions) : Bool :=
  match conditions with
  | none => true
  | some c =>
    if c.isEmpty then true
    else
      (match c.tags with
        | some required =>
          let contentTags := content.tags.getD []
          required.any (fun tag => contentTags.contains tag)
        | none => true) &&
      (match c.type with
        | some t => if t == "" then true else content.type == some t
        | none => true) &&
      (match c.lang with
        | some l => if l == "" then true else content.lang == some l
        | none => true) &&
      (match c.hasMedia with
        | some b => b == (truthy content.photo || truthy content.document || truthy content.video)
        | none => true)

/-- Value passed to `parseDelay`: a JS number, a string, or `null`/`undefined`. -/
inductive DelayValue
  | num (n : Int)
  | str (s : String)
  | null
  deriving Repr, DecidableEq

/-- The `Invalid delay format: '...'` error thrown by `parseDelay`
(`src/core/RulesEngine.js` line 67); it interpolates the original literal. -/
structure InvalidDelayFormat where
  literal : String
  deriving Repr, DecidableEq

/-- The wall clock observed by `new Date()` inside `parseDelay`:
the current day of week (`Date.getDay()`, 0 = Sunday … 6 = Saturday) and the
milliseconds elapsed since local midnight. -/
structure Clock where
  day : Nat
  msOfDay : Nat

/-- Matcher for `/^(\d+)(m|h|d)$/` (`src/core/RulesEngine.js` line 30):
a non-empty digit run followed by a single unit character. -/
def matchDuration (s : String) : Option (Nat × Char) :=
  let cs := s.toList
  match cs.getLast? with
  | some u =>
    if u == 'm' || u == 'h' || u == 'd' then
      let ds := cs.dropLast
      if !(ds.isEmpty) && ds.all isDigitChar then some (digitsToNat ds, u) else none
    else none
  | none => none

/-- Matcher for `/^(\d+)d\s+(\d{2}):(\d{2})$/` (`src/core/RulesEngine.js`
line 40): digits, `d`, whitespace, two-digit hours, `:`, two-digit
minutes. -/
def matchDurationTime (s : String) : Option (Nat × Nat × Nat) :=
  let cs := s.toList
  let (ds, rest) := cs.span isDigitChar
  match rest with
  | 'd' :: rest2 =>
    let (ws, rest3) := rest2.span isSpaceChar
    if ds.isEmpty || ws.isEmpty then none
    else match rest3 with
      | [h1, h2, ':', m1, m2] =>
        if isDigitChar h1 && isDigitChar h2 && isDigitChar m1 && isDigitChar m2 then
          some (digitsToNat ds, digitsToNat [h1, h2], digitsToNat [m1, m2])
        else none
      | _ => none
  | _ => none

/-- `dayNames` (`src/core/RulesEngine.js` line 51). -/
def dayNames : List String := ["Sun", "Mon", "Tue", "Wed", "Thu", "Fri", "Sat"]

/-- Matcher for `/^(Mon|Tue|Wed|Thu|Fri|Sat|Sun)\s+(\d{2}):(\d{2})$/`
(`src/core/RulesEngine.js` line 49), returning
(`dayNames.indexOf(weekday)`, hours, minutes). -/
def matchWeekdayTime (s : String) : Option (Nat × Nat × Nat) :=
  match s.toList with
  | c1 :: c2 :: c3 :: rest =>
    let name := String.mk [c1, c2, c3]
    if ["Mon", "Tue", "Wed", "Thu", "Fri", "Sat", "Sun"].contains name then
      let (ws, rest2) := rest.span isSpaceChar
      if ws.isEmpty then none
      else match rest2 with
        | [h1, h2, ':', m1, m2] =>
          if isDigitChar h1 && isDigitChar h2 && isDigitChar m1 && isDigitChar m2 then
            some (dayNames.indexOf name, digitsToNat [h1, h2], digitsToNat [m1, m2])
          else none
        | _ => none
    else none
  | _ => none

/-- `parseDelay` (`src/core/RulesEngine.js` lines 22-68).  Mirrors the source
branch by branch:
* `delay === 0 || delay === '0' || delay == null` → `0`;
* a number is passed through unchanged;
* otherwise the trimmed string is matched against the three regexes in
  order (simple duration, duration-with-time, weekday-with-time);
* anything else throws `Invalid delay format` carrying the original literal.
The weekday branch computes `daysAhead = targetDay - currentDay`, adds 7
when that difference is `<= 0`, then returns the signed distance from the
clock to the target day at `HH:MM` (uniform civil time). -/
def parseDelay (clock : Clock) (delay : DelayValue) : Except InvalidDelayFormat Int :=
  if delay == .num 0 || delay == .str "0" || delay == .null then .ok 0
  else
    match delay with
    | .num n => .ok n
    | .null => .ok 0
    | .str s0 =>
      let str := jsTrim s0
      match matchDuration str with
      | some (value, unit) =>
        if unit == 'm' then .ok ((value * 60 * 1000 : Nat) : Int)
        else if unit == 'h' then .ok ((value * 60 * 60 * 1000 : Nat) : Int)
        else .ok ((value * 24 * 60 * 60 * 1000 : Nat) : Int)
      | none =>
        match matchDurationTime str with
        | some (days, hours, minutes) =>
          .ok (((days * 24 * 60 * 60 + hours * 60 * 60 + minutes * 60) * 1000 : Nat) : Int)
        | none =>
          match matchWeekdayTime str with
          | some (targetDay, targetH, targetM) =>
            let daysAhead0 : Int := (targetDay : Int) - (clock.day : Int)
            let daysAhead : Int := if daysAhead0 ≤ 0 then daysAhead0 + 7 else daysAhead0
            .ok (daysAhead * 86400000 + ((targetH : Int) * 3600000 + (targetM : Int) * 60000)
                  - (clock.msOfDay : Int))
          | none => .error ⟨s0⟩


instance : DecidableEq (Except InvalidDelayFormat Int) := fun a b =>
  match a, b with
  | .ok x, .ok y =>
    if h : x = y then .isTrue (by rw [h]) else .isFalse (by simp [h])
  | .error x, .error y =>
    if h : x = y then .isTrue (by rw [h]) else .isFalse (by simp [h])
  | .ok _, .error _ => .isFalse (by simp)
  | .error _, .ok _ => .isFalse (by simp)

/-- A registered adapter as seen by the rules engine: `ref` models JavaScript
object identity (the verification cache of `executeTasks` is a `Map` keyed by
the adapter object itself), `id` is the adapter's `id` getter.  The adapter's
method behavior is supplied separately as functions of `ref` (an object's
methods are determined by the object). -/
structure Adapter where
  ref : Nat
  id : String
  deriving Repr, DecidableEq

/-- A publish task produced by `evaluateRules`
(`src/core/RulesEngine.js` lines 131-137).  (Named `PublishTask` because
`Task` is taken by the Lean prelude.) -/
structure PublishTask where
  adapter : Adapter
  content : Content
  delayMs : Int
  channel : Option String := none
  ruleName : String
  deriving Repr, DecidableEq

/-- One destination spec in a rule's `publish` list
(`src/core/RulesEngine.js` lines 7-12). -/
structure PublishTarget where
  adapter : String
  delay : DelayValue := .null
  channel : Option String := none
  deriving Repr, DecidableEq

/-- A rule definition: `{ name, if, publish }`
(`src/core/RulesEngine.js` lines 7-12). -/
structure Rule where
  name : String
  «if» : Option Conditions := none
  publish : List PublishTarget
  deriving Repr, DecidableEq

/-- The caller-supplied `Map<string, SocialAdapter>` registry; `lookup` is
`adapters.get`. -/
abbrev Registry := List (String × Adapter)

/-- Errors thrown out of `evaluateRules`: `SocialAdapterValidationError`
(`src/core/Models.js` lines 207-219) carrying the validation error list, or
the `Invalid delay format` error propagating from `parseDelay`. -/
inductive EngineError
  | validation (errors : List String)
  | invalidDelay (e : InvalidDelayFormat)
  deriving Repr, DecidableEq

/-- `target.channel || null` (`src/core/RulesEngine.js` line 135): an absent
or empty-string channel becomes `null`. -/
def channelOrNull : Option String → Option String
  | some c => if c == "" then none else some c
  | none => none

/-- The inner loop of `evaluateRules` over one rule's `publish` list
(`src/core/RulesEngine.js` lines 122-138): an unknown adapter identifier is
skipped (the source also emits a `console.warn`, which the embedding does not
model), otherwise a task is appended with the cloned content, the parsed
delay (whose failure propagates), the normalized channel and the rule
name. -/
def evalTargets (clock : Clock) (content : Content) (ruleName : String)
    (adapters : Registry) : List PublishTarget → Except EngineError (List PublishTask)
  | [] => .ok []
  | target :: rest =>
    match adapters.lookup target.adapter with
    | none => evalTargets clock content ruleName adapters rest
    | some a =>
      match parseDelay clock target.delay with
      | .error e => .error (.invalidDelay e)
      | .ok ms =>
        match evalTargets clock content ruleName adapters rest with
        | .error e => .error e
        | .ok tail =>
          .ok ({ adapter := a, content := content, delayMs := ms,
                 channel := channelOrNull target.channel, ruleName := ruleName } :: tail)

/-- The outer loop of `evaluateRules` over the rule list
(`src/core/RulesEngine.js` lines 119-139): rules whose conditions do not
match are skipped; matching rules contribute their targets' tasks in
order. -/
def evalRulesList (clock : Clock) (content : Content) (adapters : Registry) :
    List Rule → Except EngineError (List PublishTask)
  | [] => .ok []
  | r :: rest =>
    if matchesConditions content r.«if» then
      match evalTargets clock content r.name adapters r.publish with
      | .error e => .error e
      | .ok ts =>
        match evalRulesList clock content adapters rest with
        | .error e => .error e
        | .ok rest' => .ok (ts ++ rest')
    else evalRulesList clock content adapters rest

/-- `evaluateRules` (`src/core/RulesEngine.js` lines 110-142): validates the
content first and throws `SocialAdapterValidationError` with the full error
list on failure, before any rule is examined; otherwise evaluates the rules
in order. -/
def evaluateRules (clock : Clock) (content : Content) (rules : List Rule)
    (adapters : Registry) : Except EngineError (List PublishTask) :=
  let validation := SocialAdapterContent.validate content
  if !validation.valid then .error (.validation validation.errors)
  else evalRulesList clock content adapters rules

/-- A JS result object as an ordered association list of string keys, so the
key names produced by `executeTasks` are part of the model. -/
abbrev ResultObj := List (String × String)

/-- JS property assignment on an object literal: overwrite the value in place
when the key exists, append the property otherwise.  `{ ...result, k: v }`
is `jsSet result k v`. -/
def jsSet : ResultObj → String → String → ResultObj
  | [], key, v => [(key, v)]
  | kv :: rest, key, v =>
    if kv.1 == key then (key, v) :: rest else kv :: jsSet rest key v

/-- `{ ...result, ruleName: task.ruleName, adapter: task.adapter.id }`
(`src/core/RulesEngine.js` lines 188 and 199): the adapter's publish result
extended with the rule name and the adapter identifier.  `pub` is the
adapter-object publish behavior, keyed by object identity. -/
def mkResult (pub : Nat → Content → ResultObj) (t : PublishTask) : ResultObj :=
  jsSet (jsSet (pub t.adapter.ref t.content) "ruleName" t.ruleName) "adapter" t.adapter.id

/-- The verification loop of `executeTasks`
(`src/core/RulesEngine.js` lines 160-172): walk the task list and, for each
adapter object not yet in the `verified` cache, invoke `verify()` once and
record the outcome.  The returned list is the sequence of adapter references
on which `verify()` is actually invoked, in invocation order; `seen` is the
cache key set. -/
def verifyLoop (seen : List Nat) : List PublishTask → List Nat
  | [] => []
  | t :: rest =>
    if t.adapter.ref ∈ seen then verifyLoop seen rest
    else t.adapter.ref :: verifyLoop (t.adapter.ref :: seen) rest

/-- The adapter references on which one `executeTasks` batch invokes
`verify()` (the cache starts empty at line 158). -/
def verifiedRefs (tasks : List PublishTask) : List Nat :=
  verifyLoop [] tasks

/-- The gate of `executeTasks` (`src/core/RulesEngine.js` lines 155-179):
when `opts.verify` is set, adapters whose `verify()` rejected (the `ver`
behavior, with the rejection caught at lines 165-170 and only a warning
emitted) form the failed set, and every task bound to a failed adapter is
filtered out. -/
def gateSurvivors (ver : Nat → Bool) (tasks : List PublishTask) (opts : Bool) : List PublishTask :=
  if opts then
    let failed := (verifiedRefs tasks).filter (fun r => !(ver r))
    if 0 < failed.length then
      tasks.filter (fun t => !(decide (t.adapter.ref ∈ failed)))
    else tasks
  else tasks

/-- The tasks whose `publish` is invoked by one `executeTasks` batch, listed
by lane: the immediate lane (`delayMs === 0`) in list order, then the
deferred lane (`delayMs > 0`) in submission order.  (The wall-clock order of
the deferred `publish` calls depends on timer expiry; membership does
not.) -/
def publishedTasks (ver : Nat → Bool) (tasks : List PublishTask) (opts : Bool) : List PublishTask :=
  let ts := gateSurvivors ver tasks opts
  ts.filter (fun t => t.delayMs == 0) ++ ts.filter (fun t => decide (0 < t.delayMs))

/-- `executeTasks` (`src/core/RulesEngine.js` lines 151-209).  After the
verification gate, the surviving tasks are partitioned into the immediate
lane (`delayMs === 0`), executed sequentially in list order, and the
deferred lane (`delayMs > 0`), scheduled concurrently with `Promise.all`,
which resolves to the results in submission order regardless of when the
individual delays expire; the deferred results are appended after the
immediate ones.  `ver r` models whether the `verify()` of the adapter object
`r` resolves (`false` = it rejects and the rejection is caught in the gate);
`pub` models each adapter object's `publish`.  `opts` is `opts.verify`
(default `false`). -/
def executeTasks (ver : Nat → Bool) (pub : Nat → Content → ResultObj)
    (tasks : List PublishTask) (opts : Bool) : List ResultObj :=
  let ts := gateSurvivors ver tasks opts
  let immediate := ts.filter (fun t => t.delayMs == 0)
  let delayed := ts.filter (fun t => decide (0 < t.delayMs))
  immediate.map (mkResult pub) ++ delayed.map (mkResult pub)

/-- Failure signals observable from adapter method calls:
`NotImplementedError` (`src/core/SocialAdapter.js` lines 3-8), the
capability-check errors thrown before the not-implemented check
(lines 84-88 and 110-115), the JavaScript TypeError raised when a member
that the object does not define is invoked, and the Dummy adapter's
post-not-found error. -/
inductive AdapterFailure
  | notImplemented (method : String)
  | capabilityErr (msg : String)
  | missingMethod (method : String)
  | notFound (msg : String)
  deriving Repr, DecidableEq

/-- The base `capabilities` getter: empty
(`src/core/SocialAdapter.js` lines 38-40). -/
def SocialAdapter.capabilities : List String := []

/-- `can(cap)`: membership in the capability token list
(`src/core/SocialAdapter.js` lines 54-56). -/
def SocialAdapter.can (caps : List String) (cap : String) : Bool :=
  caps.contains cap

/-- Base `verify()`: always `NotImplementedError`
(`src/core/SocialAdapter.js` lines 63-65). -/
def SocialAdapter.verifyCall : Except AdapterFailure Bool :=
  .error (.notImplemented "verify")

/-- Base `delete(postId)` for an adapter with capability list `caps`
(`src/core/SocialAdapter.js` lines 83-88): a capability error when the
`delete` token is absent, otherwise `NotImplementedError`. -/
def SocialAdapter.deleteCall (caps : List String) : Except AdapterFailure Bool :=
  if !(SocialAdapter.can caps "delete") then
    .error (.capabilityErr "does not support deleting posts.")
  else .error (.notImplemented "delete")

/-- Calling `update(postId, content)` on the base adapter.  The class body of
`SocialAdapter` (`src/core/SocialAdapter.js` lines 14-116) declares only
`id`, `capabilities`, `limits`, `can`, `verify`, `publish`, `delete`,
`syncFeedback` and `reply` — there is no `update` member at any point of the
prototype chain, so in JavaScript the call raises a TypeError (the property
is `undefined`, not a function).  The arguments are therefore never
inspected. -/
def SocialAdapter.updateCall (_postId : String) (_content : Content) :
    Except AdapterFailure ResultObj :=
  .error (.missingMethod "update")

/-- `DummyAdapter`'s capability token list
(`src/core/DummyAdapter.js` lines 55-57). -/
def DummyAdapter.capabilities : List String :=
  ["media", "delete", "reply", "edit", "photo", "document"]

/-- JS object spread `{ ...existing, ...content }` on two content values:
fields present on `content` override `existing`. -/
def mergeContent (existing c : Content) : Content :=
  { text := c.text <|> existing.text
    photo := c.photo <|> existing.photo
    video := c.video <|> existing.video
    document := c.document <|> existing.document
    audio := c.audio <|> existing.audio
    tags := c.tags <|> existing.tags
    type := c.type <|> existing.type
    lang := c.lang <|> existing.lang }

/-- `Map.prototype.set`: overwrite in place when the key exists, append
otherwise. -/
def jsMapSet : List (String × Content) → String → Content → List (String × Content)
  | [], key, v => [(key, v)]
  | kv :: rest, key, v =>
    if kv.1 == key then (key, v) :: rest else kv :: jsMapSet rest key v

/-- `DummyAdapter.update` (`src/core/DummyAdapter.js` lines 137-145) over the
in-memory `posts` store: fails when the post is unknown, otherwise merges
the content into the stored post and returns `{ id, url }` together with the
updated store.  Note there is no capability check in this method (the
`updatedAt` timestamp stamped on the stored payload is outside the content
model). -/
def DummyAdapter.update (posts : List (String × Content)) (postId : String)
    (content : Content) : Except AdapterFailure (ResultObj × List (String × Content)) :=
  match posts.lookup postId with
  | none => .error (.notFound "Post not found on Dummy platform")
  | some existing =>
    .ok ([("id", postId), ("url", String.append "https://dummy.nan0web.app/posts/" postId)],
      jsMapSet posts postId (mergeContent existing content))

/-! Concrete fixtures used by counterexamples and witnesses. -/

/-- A registered adapter with identifier `dummy`. -/
def adapterDummy : Adapter := { ref := 0, id := "dummy" }

/-- A second, distinct adapter object. -/
def adapterBroken : Adapter := { ref := 1, id := "broken" }

/-- Verify behavior where every adapter's `verify()` resolves. -/
def verAll : Nat → Bool := fun _ => true

/-- Verify behavior where exactly the object `adapterBroken` rejects. -/
def verExceptBroken : Nat → Bool := fun r => !(r == 1)

/-- A publish behavior returning the fixed result `{ id: "p1", url: "http://p1" }`. -/
def pubFixed : Nat → Content → ResultObj :=
  fun _ _ => [("id", "p1"), ("url", "http://p1")]

/-- A small valid content item. -/
def contentHello : Content := { text := some "hi", tags := some ["public"] }

/-- An immediate task on `adapterDummy`. -/
def taskImmediate : PublishTask :=
  { adapter := adapterDummy, content := contentHello, delayMs := 0, ruleName := "r" }

/-- A deferred task on `adapterDummy`. -/
def taskDelayed : PublishTask :=
  { adapter := adapterDummy, content := contentHello, delayMs := 1800000, ruleName := "later" }

/-- An immediate task on `adapterBroken`. -/
def taskBroken : PublishTask :=
  { adapter := adapterBroken, content := contentHello, delayMs := 0, ruleName := "rb" }

/-- A task whose `delayMs` is negative. -/
def taskNegative : PublishTask :=
  { adapter := adapterDummy, content := contentHello, delayMs := -5, ruleName := "neg" }

/-- A registry containing only `adapterDummy` under the key `dummy`. -/
def registryDummy : Registry := [("dummy", adapterDummy)]

/-- A destination spec naming an identifier absent from `registryDummy`. -/
def targetUnknown : PublishTarget := { adapter := "nope" }

/-- A destination spec naming `dummy`, immediate. -/
def targetDummy : PublishTarget := { adapter := "dummy", delay := .num 0 }

/-- A rule with no conditions publishing immediately to `dummy`. -/
def ruleAll : Rule := { name := "r", publish := [targetDummy] }

/-- A clock on Monday at 08:00 local time. -/
def clockMon8 : Clock := ⟨1, 28800000⟩

/-- A content item with no text and no media. -/
def emptyContent : Content := {}


theorem parseDelay_num (c : Clock) (n : Int) : parseDelay c (.num n) = .ok n := by
  by_cases h : n = 0
  · subst h; rfl
  · unfold parseDelay
    have hcond : ¬((DelayValue.num n == DelayValue.num 0
        || DelayValue.num n == DelayValue.str "0"
        || DelayValue.num n == DelayValue.null) = true) := by
      simp [h]
    rw [if_neg hcond]

/-- Claim C3 (code bug): `parseDelay` on a weekday-with-time literal does not
stay within `(0, 604800000]`, and it rolls forward 7 days even when the
target weekday/time is still ahead of "now": with the clock at Monday 08:00,
`"Mon 10:00"` (today, two hours ahead) parses to 612000000 ms
= 7 days + 2 hours, because `daysAhead = targetDay - currentDay = 0` is
bumped by 7 without consulting the time of day.  The repository's own test
(`src/test/RulesEngine.spec.js` lines 44-48) asserts the parsed value is at
most 7 days. -/
theorem parseDelay_weekday_monday_morning_exceeds_week :
    parseDelay clockMon8 (.str "Mon 10:00") = .ok 612000000
    ∧ ¬((612000000 : Int) ≤ 604800000)
    ∧ clockMon8.msOfDay < 10 * 3600000 :=
  ⟨rfl, by decide, by decide⟩

/-- A content item whose only media reference is `audio`. -/
def audioOnlyContent : Content := { audio := some "u" }

/-- Claim C4 (code bug): the `hasMedia` condition in `matchesConditions`
computes media presence from `photo`, `document` and `video` only
(`src/core/RulesEngine.js` line 94), ignoring `audio` — while the content
model itself (`SocialAdapterContent.validate`, `src/core/Models.js`
line 192) counts `audio` as a media reference.  Hence an audio-only content
item is valid by virtue of its media, yet `hasMedia: true` does not match it
and `hasMedia: false` does. -/
theorem matchesConditions_hasMedia_ignores_audio :
    matchesConditions audioOnlyContent (some { hasMedia := some true }) = false
    ∧ matchesConditions audioOnlyContent (some { hasMedia := some false }) = true
    ∧ (SocialAdapterContent.validate audioOnlyContent).valid = true := by
  decide

/-- Claim C5: `parseDelay` maps `0`, `"0"` and `null` to 0, passes bare
numbers through unchanged, evaluates `"30m"`, `"2h"`, `"1d"` and
`"1d 09:00"` to the stated millisecond values (the `Nd HH:MM` form is a pure
additive offset), and on every string literal either succeeds or fails with
the `Invalid delay format` error carrying exactly the offending literal — in
particular on `"tomorrow"` and `"5x"`. -/
theorem parseDelay_literal_cases :
    (∀ c : Clock,
      parseDelay c (.num 0) = .ok 0
      ∧ parseDelay c (.str "0") = .ok 0
      ∧ parseDelay c .null = .ok 0
      ∧ (∀ n : Int, parseDelay c (.num n) = .ok n)
      ∧ parseDelay c (.str "30m") = .ok 1800000
      ∧ parseDelay c (.str "2h") = .ok 7200000
      ∧ parseDelay c (.str "1d") = .ok 86400000
      ∧ parseDelay c (.str "1d 09:00") = .ok ((1 * 86400000 + 9 * 3600000 : Nat) : Int)
      ∧ parseDelay c (.str "tomorrow") = .error ⟨"tomorrow"⟩
      ∧ parseDelay c (.str "5x") = .error ⟨"5x"⟩)
    ∧ (∀ (c : Clock) (s : String),
        (∃ v, parseDelay c (.str s) = .ok v) ∨ parseDelay c (.str s) = .error ⟨s⟩) := by
  constructor
  · intro c
    exact ⟨rfl, rfl, rfl, parseDelay_num c, rfl, rfl, rfl, rfl, rfl, rfl⟩
  · intro c s
    rcases hres : parseDelay c (.str s) with e | v
    · right
      have h : e = ⟨s⟩ := by
        unfold parseDelay at hres
        split at hres
        · exact absurd hres (by simp)
        · simp only at hres
          repeat' split at hres
          all_goals simp_all
      rw [h]
    · exact Or.inl ⟨v, rfl⟩

/-- Claim C6 (code bug): the base `SocialAdapter` class lacks the `edit`
capability, but calling `update` on it does not fail with a capability
error naming the missing token — the class defines no `update` member at
all, so the call fails with a missing-method TypeError, a signal that is
neither a capability error nor the `NotImplementedError` raised by
unoverridden abstract members (shown here on `verify`).  The repository's
own v1.1.0 contract test and release checklist require a capability-gated
base `update`. -/
theorem socialAdapter_update_not_capability_gated :
    SocialAdapter.can SocialAdapter.capabilities "edit" = false
    ∧ SocialAdapter.updateCall "post-1" { text := some "new" }
        = .error (.missingMethod "update")
    ∧ (∀ msg, (AdapterFailure.missingMethod "update" == .capabilityErr msg) = false)
    ∧ (∀ m, (AdapterFailure.missingMethod "update" == .notImplemented m) = false)
    ∧ SocialAdapter.verifyCall = .error (.notImplemented "verify") := by
  refine ⟨rfl, rfl, ?_, ?_, rfl⟩ <;> intro x <;>
    simp only [beq_eq_false_iff_ne, ne_eq, reduceCtorEq, not_false_eq_true]

/-- Claim C7: for every content item failing validation, `evaluateRules`
throws `SocialAdapterValidationError` carrying the full validation error
list, regardless of the rule set and registry (so no rule matching happens
and no tasks are produced). -/
theorem evaluateRules_fails_fast_on_invalid_content
    (clock : Clock) (content : Content) (rules : List Rule) (adapters : Registry)
    (h : (SocialAdapterContent.validate content).valid = false) :
    evaluateRules clock content rules adapters
      = .error (.validation (SocialAdapterContent.validate content).errors) := by
  unfold evaluateRules
  simp [h]

/-- Witness for C7 at the empty content. -/
theorem evaluateRules_fails_fast_on_invalid_content_witness :
    evaluateRules clockMon8 emptyContent [ruleAll] registryDummy
      = .error (.validation (SocialAdapterContent.validate emptyContent).errors) :=
  evaluateRules_fails_fast_on_invalid_content clockMon8 emptyContent [ruleAll]
    registryDummy (by decide)

/-- Claim C9: `SocialAdapterContent.validate` accepts exactly the content
items with non-empty trimmed text or a truthy media reference (photo,
video, document or audio); otherwise it returns exactly the one descriptive
error message, which mentions both text and media.  In particular the empty
content and empty-text content are invalid, photo-only content is valid. -/
theorem validate_content_boundary :
    (∀ raw : Content,
        SocialAdapterContent.validate raw
          = { valid := hasText raw || hasMediaV raw,
              errors := if hasText raw || hasMediaV raw then [] else [validateMsg] })
    ∧ (SocialAdapterContent.validate emptyContent).valid = false
    ∧ (SocialAdapterContent.validate emptyContent).errors = [validateMsg]
    ∧ (SocialAdapterContent.validate { photo := some "u" }).valid = true
    ∧ (SocialAdapterContent.validate { text := some "" }).valid = false
    ∧ List.IsInfix "text".toList validateMsg.toList
    ∧ List.IsInfix "media".toList validateMsg.toList := by
  refine ⟨?_, by decide, by decide, by decide, by decide, by decide, by decide⟩
  intro raw
  unfold SocialAdapterContent.validate
  cases h1 : hasText raw <;> cases h2 : hasMediaV raw <;> simp [h1, h2]

theorem verifyLoop_mem (tasks : List PublishTask) : ∀ (seen : List Nat) (r : Nat),
    r ∈ verifyLoop seen tasks ↔ r ∉ seen ∧ ∃ t ∈ tasks, t.adapter.ref = r := by
  induction tasks with
  | nil => intro seen r; simp [verifyLoop]
  | cons t rest ih =>
    intro seen r
    unfold verifyLoop
    by_cases hc : t.adapter.ref ∈ seen
    · rw [if_pos hc, ih]
      constructor
      · rintro ⟨hrs, u, hu, hur⟩
        exact ⟨hrs, u, List.mem_cons_of_mem _ hu, hur⟩
      · rintro ⟨hrs, u, hu, hur⟩
        rcases List.mem_cons.mp hu with h | h
        · subst h; rw [hur] at hc; exact absurd hc hrs
        · exact ⟨hrs, u, h, hur⟩
    · rw [if_neg hc]
      rw [List.mem_cons, ih]
      constructor
      · rintro (h | ⟨hrs, u, hu, hur⟩)
        · subst h; exact ⟨hc, t, List.mem_cons_self _ _, rfl⟩
        · have hrs' : r ∉ seen := fun hx => hrs (List.mem_cons_of_mem _ hx)
          exact ⟨hrs', u, List.mem_cons_of_mem _ hu, hur⟩
      · rintro ⟨hrs, u, hu, hur⟩
        rcases List.mem_cons.mp hu with h | h
        · subst h; exact Or.inl hur.symm
        · by_cases hr : r = t.adapter.ref
          · exact Or.inl hr
          · refine Or.inr ⟨?_, u, h, hur⟩
            rw [List.mem_cons]
            rintro (hx | hx)
            · exact hr hx
            · exact hrs hx

theorem verifyLoop_nodup (tasks : List PublishTask) : ∀ seen : List Nat,
    (verifyLoop seen tasks).Nodup := by
  induction tasks with
  | nil => intro seen; simp [verifyLoop]
  | cons t rest ih =>
    intro seen
    unfold verifyLoop
    by_cases hc : t.adapter.ref ∈ seen
    · rw [if_pos hc]; exact ih seen
    · rw [if_neg hc]
      refine List.nodup_cons.mpr ⟨?_, ih _⟩
      intro hmem
      exact ((verifyLoop_mem rest _ _).mp hmem).1 (List.mem_cons_self _ _)

theorem verifiedRefs_count (tasks : List PublishTask) (r : Nat) :
    (verifiedRefs tasks).count r
      = if tasks.any (fun t => t.adapter.ref == r) then 1 else 0 := by
  have hmem : r ∈ verifiedRefs tasks ↔ ∃ t ∈ tasks, t.adapter.ref = r := by
    rw [verifiedRefs, verifyLoop_mem]
    simp
  by_cases h : tasks.any (fun t => t.adapter.ref == r) = true
  · rw [if_pos h]
    refine List.count_eq_one_of_mem (verifyLoop_nodup tasks []) ?_
    refine hmem.mpr ?_
    rcases List.any_eq_true.mp h with ⟨t, ht, hr⟩
    exact ⟨t, ht, by simpa using hr⟩
  · rw [if_neg h]
    refine List.count_eq_zero.mpr ?_
    intro hm
    rcases hmem.mp hm with ⟨t, ht, hr⟩
    exact h (List.any_eq_true.mpr ⟨t, ht, by simpa using hr⟩)

theorem gateSurvivors_true (ver : Nat → Bool) (tasks : List PublishTask) :
    gateSurvivors ver tasks true = tasks.filter (fun t => ver t.adapter.ref) := by
  unfold gateSurvivors
  rw [if_pos rfl]
  have hkey : ∀ t ∈ tasks,
      (!(decide (t.adapter.ref ∈ (verifiedRefs tasks).filter (fun r => !(ver r)))))
        = ver t.adapter.ref := by
    intro t ht
    have hv : t.adapter.ref ∈ verifiedRefs tasks := by
      rw [verifiedRefs, verifyLoop_mem]
      exact ⟨by simp, t, ht, rfl⟩
    cases hvr : ver t.adapter.ref with
    | true =>
      have hnm : t.adapter.ref ∉ (verifiedRefs tasks).filter (fun r => !(ver r)) := by
        intro hmem
        have := (List.mem_filter.mp hmem).2
        rw [hvr] at this
        simp at this
      simp [hnm]
    | false =>
      have hmm : t.adapter.ref ∈ (verifiedRefs tasks).filter (fun r => !(ver r)) :=
        List.mem_filter.mpr ⟨hv, by rw [hvr]; rfl⟩
      simp [hmm]
  by_cases hlen : 0 < ((verifiedRefs tasks).filter (fun r => !(ver r))).length
  · rw [if_pos hlen]
    exact List.filter_congr hkey
  · rw [if_neg hlen]
    symm
    rw [List.filter_eq_self]
    intro t ht
    have hfe : (verifiedRefs tasks).filter (fun r => !(ver r)) = [] :=
      List.length_eq_zero.mp (Nat.le_zero.mp (Nat.not_lt.mp hlen))
    have := hkey t ht
    rw [hfe] at this
    simpa using this.symm

/-- Claim C1: with the verification gate enabled, each distinct adapter
object referenced by the batch has its `verify()` invoked exactly once
(`verifiedRefs` is the invocation trace, with multiplicity), and the batch
result equals the ungated two-lane execution of exactly those tasks whose
adapter verified successfully — so every task of a failed adapter yields no
result (and, the gate being total, no exception reaches the caller: the
source catches the rejection at lines 165-170), while tasks of other
adapters still execute and produce their results. -/
theorem executeTasks_verify_gate_spec (ver : Nat → Bool) (pub : Nat → Content → ResultObj)
    (tasks : List PublishTask) (r : Nat) :
    (verifiedRefs tasks).count r
      = (if tasks.any (fun t => t.adapter.ref == r) then 1 else 0)
    ∧ executeTasks ver pub tasks true
        = ((tasks.filter (fun t => ver t.adapter.ref)).filter
              (fun t => t.delayMs == 0)).map (mkResult pub)
          ++ ((tasks.filter (fun t => ver t.adapter.ref)).filter
              (fun t => decide (0 < t.delayMs))).map (mkResult pub) := by
  refine ⟨verifiedRefs_count tasks r, ?_⟩
  unfold executeTasks
  rw [gateSurvivors_true]

theorem jsSet_lookup (obj : ResultObj) (key v k : String) :
    (jsSet obj key v).lookup k = if k = key then some v else obj.lookup k := by
  induction obj with
  | nil =>
    by_cases hk : k = key
    · simp [jsSet, List.lookup, hk]
    · have hb : (k == key) = false := beq_eq_false_iff_ne.mpr hk
      simp [jsSet, List.lookup, hk, hb]
  | cons kv rest ih =>
    obtain ⟨k1, v1⟩ := kv
    unfold jsSet
    by_cases h : k1 = key
    · rw [if_pos (by simp [h])]
      by_cases hk : k = key
      · simp [List.lookup, hk]
      · have hb : (k == key) = false := beq_eq_false_iff_ne.mpr hk
        have hb1 : (k == k1) = false := beq_eq_false_iff_ne.mpr (by rw [h]; exact hk)
        simp [List.lookup, hk, hb, hb1]
    · rw [if_neg (by simp [h])]
      by_cases hk : k = k1
      · have hkey : ¬(k = key) := by rw [hk]; exact h
        have hb : (k == k1) = true := beq_iff_eq.mpr hk
        simp [List.lookup, hb, hkey, h]
      · have hb : (k == k1) = false := beq_eq_false_iff_ne.mpr hk
        simp [List.lookup, hb, ih]

theorem mkResult_lookup (pub : Nat → Content → ResultObj) (t : PublishTask) :
    (mkResult pub t).lookup "ruleName" = some t.ruleName
    ∧ (mkResult pub t).lookup "adapter" = some t.adapter.id
    ∧ ∀ k, k ≠ "ruleName" → k ≠ "adapter" →
        (mkResult pub t).lookup k = (pub t.adapter.ref t.content).lookup k := by
  unfold mkResult
  refine ⟨?_, ?_, ?_⟩
  · rw [jsSet_lookup, if_neg (by decide), jsSet_lookup, if_pos rfl]
  · rw [jsSet_lookup, if_pos rfl]
  · intro k h1 h2
    rw [jsSet_lookup, if_neg h2, jsSet_lookup, if_neg h1]

/-- Claim C2 (amended): without the gate, `executeTasks` partitions the task
list into the immediate lane (`delayMs == 0`, executed in list order) and
the deferred lane (`delayMs > 0`, results appended after all immediate
results in submission order); each result is the adapter's publish result
extended with the rule name under the key `ruleName` and the adapter
identifier under the key `adapter` (not `adapterId`), all other keys of the
publish result passing through unchanged. -/
theorem executeTasks_lane_order_and_result_fields
    (ver : Nat → Bool) (pub : Nat → Content → ResultObj) (tasks : List PublishTask) :
    executeTasks ver pub tasks false
      = (tasks.filter (fun t => t.delayMs == 0)).map (mkResult pub)
        ++ (tasks.filter (fun t => decide (0 < t.delayMs))).map (mkResult pub)
    ∧ ∀ t : PublishTask,
        (mkResult pub t).lookup "ruleName" = some t.ruleName
        ∧ (mkResult pub t).lookup "adapter" = some t.adapter.id
        ∧ ∀ k, k ≠ "ruleName" → k ≠ "adapter" →
            (mkResult pub t).lookup k = (pub t.adapter.ref t.content).lookup k :=
  ⟨rfl, fun t => mkResult_lookup pub t⟩

/-- Witness for C2 at a two-task batch: the immediate result precedes the
deferred one, and the `id` key of the publish result passes through. -/
theorem executeTasks_lane_order_and_result_fields_witness :
    executeTasks verAll pubFixed [taskDelayed, taskImmediate] false
      = [mkResult pubFixed taskImmediate, mkResult pubFixed taskDelayed]
    ∧ (mkResult pubFixed taskImmediate).lookup "id"
        = (pubFixed taskImmediate.adapter.ref taskImmediate.content).lookup "id" :=
  ⟨((executeTasks_lane_order_and_result_fields verAll pubFixed
      [taskDelayed, taskImmediate]).1).trans (by decide),
   ((executeTasks_lane_order_and_result_fields verAll pubFixed
      [taskDelayed, taskImmediate]).2 taskImmediate).2.2 "id" (by decide) (by decide)⟩

/-- Counterexample for C2 as stated: the result appended by `executeTasks`
for an immediate task carries the adapter identifier under the key
`adapter` — there is no `adapterId` key, contradicting the claimed result
shape `{id, url, ruleName, adapterId}` (the repository's own test,
`src/test/RulesEngine.spec.js` line 166, reads `results[0].adapter`). -/
theorem executeTasks_result_key_is_adapter_not_adapterId :
    executeTasks verAll pubFixed [taskImmediate] false
      = [[("id", "p1"), ("url", "http://p1"), ("ruleName", "r"), ("adapter", "dummy")]]
    ∧ ((executeTasks verAll pubFixed [taskImmediate] false).head?.bind
        (fun o => o.lookup "adapterId")) = none
    ∧ ((executeTasks verAll pubFixed [taskImmediate] false).head?.bind
        (fun o => o.lookup "adapter")) = some "dummy" := by
  decide

/-- Claim C10: `parseDelay` passes a negative bare number through unchanged,
and a task whose `delayMs` is strictly negative belongs to neither execution
lane — `executeTasks` never invokes its `publish`, emits no result for it
and raises no error: removing the task from the batch leaves the output
unchanged, with or without the verification gate. -/
theorem negative_delay_task_silently_dropped
    (c : Clock) (n : Int) (_hn : n < 0) (ver : Nat → Bool) (pub : Nat → Content → ResultObj)
    (pre post : List PublishTask) (t : PublishTask) (ht : t.delayMs < 0) (opts : Bool) :
    parseDelay c (.num n) = .ok n
    ∧ t ∉ publishedTasks ver (pre ++ t :: post) opts
    ∧ executeTasks ver pub (pre ++ t :: post) opts = executeTasks ver pub (pre ++ post) opts := by
  have hbeq : (t.delayMs == 0) = false := by
    simp only [beq_eq_false_iff_ne, ne_eq]
    omega
  have hdec : (decide (0 < t.delayMs)) = false := by
    simp only [decide_eq_false_iff_not, not_lt]
    omega
  refine ⟨parseDelay_num c n, ?_, ?_⟩
  · intro hmem
    rcases List.mem_append.mp hmem with hm | hm
    · have := (List.mem_filter.mp hm).2
      rw [hbeq] at this
      exact Bool.false_ne_true this
    · have := (List.mem_filter.mp hm).2
      rw [hdec] at this
      exact Bool.false_ne_true this
  · cases opts with
    | false =>
      unfold executeTasks gateSurvivors
      simp [List.filter_append, List.filter_cons, hbeq, hdec]
    | true =>
      unfold executeTasks
      rw [gateSurvivors_true, gateSurvivors_true]
      cases hvt : ver t.adapter.ref with
      | false => simp [List.filter_append, List.filter_cons, hvt, hbeq, hdec]
      | true => simp [List.filter_append, List.filter_cons, hvt, hbeq, hdec]

/-- Witness for C10: the negative-delay task between no predecessor and one
immediate successor is dropped without affecting the successor. -/
theorem negative_delay_task_silently_dropped_witness :
    parseDelay clockMon8 (.num (-5)) = .ok (-5)
    ∧ taskNegative ∉ publishedTasks verAll ([] ++ taskNegative :: [taskImmediate]) false
    ∧ executeTasks verAll pubFixed ([] ++ taskNegative :: [taskImmediate]) false
        = executeTasks verAll pubFixed ([] ++ [taskImmediate]) false :=
  negative_delay_task_silently_dropped clockMon8 (-5) (by decide) verAll pubFixed
    [] [taskImmediate] taskNegative (by decide) false

theorem evalTargets_skip_unknown (clock : Clock) (content : Content) (ruleName : String)
    (adapters : Registry) (tgt : PublishTarget)
    (h : adapters.lookup tgt.adapter = none) :
    ∀ tpre tpost : List PublishTarget,
      evalTargets clock content ruleName adapters (tpre ++ tgt :: tpost)
        = evalTargets clock content ruleName adapters (tpre ++ tpost) := by
  intro tpre
  induction tpre with
  | nil =>
    intro tpost
    simp only [List.nil_append]
    conv_lhs => rw [evalTargets]
    rw [h]
  | cons u rest ih =>
    intro tpost
    simp only [List.cons_append]
    rw [evalTargets, evalTargets, ih]

theorem evalRulesList_congr_publish (clock : Clock) (content : Content)
    (adapters : Registry) (name : String) (cnd : Option Conditions)
    (p1 p2 : List PublishTarget)
    (hp : evalTargets clock content name adapters p1
            = evalTargets clock content name adapters p2) :
    ∀ pre post : List Rule,
      evalRulesList clock content adapters
          (pre ++ { name := name, «if» := cnd, publish := p1 } :: post)
        = evalRulesList clock content adapters
          (pre ++ { name := name, «if» := cnd, publish := p2 } :: post) := by
  intro pre
  induction pre with
  | nil =>
    intro post
    simp only [List.nil_append]
    rw [evalRulesList, evalRulesList]
    dsimp only
    rw [hp]
  | cons r rest ih =>
    intro post
    simp only [List.cons_append]
    rw [evalRulesList, evalRulesList, ih]

/-- Claim C8: a destination spec whose adapter identifier is not registered
is skipped (the source also emits a warning, not modelled): evaluation of
the whole rule set behaves exactly as if that destination were absent — it
contributes no task, throws nothing, and the remaining destinations and
rules are still evaluated. -/
theorem evaluateRules_skips_unknown_adapter
    (clock : Clock) (content : Content) (adapters : Registry)
    (name : String) (cnd : Option Conditions) (tgt : PublishTarget)
    (tpre tpost : List PublishTarget) (pre post : List Rule)
    (h : adapters.lookup tgt.adapter = none) :
    evaluateRules clock content
        (pre ++ { name := name, «if» := cnd, publish := tpre ++ tgt :: tpost } :: post)
        adapters
      = evaluateRules clock content
        (pre ++ { name := name, «if» := cnd, publish := tpre ++ tpost } :: post)
        adapters := by
  unfold evaluateRules
  cases hv : (SocialAdapterContent.validate content).valid with
  | false => simp [hv]
  | true =>
    simp only [hv, Bool.not_true, Bool.false_eq_true, if_false]
    exact evalRulesList_congr_publish clock content adapters name cnd _ _
      (evalTargets_skip_unknown clock content name adapters tgt h tpre tpost) pre post

/-- Witness for C8: a rule listing an unknown destination before the known
`dummy` destination evaluates identically to the rule without it. -/
theorem evaluateRules_skips_unknown_adapter_witness :
    evaluateRules clockMon8 contentHello
        ([] ++ { name := "r", «if» := none,
                 publish := [] ++ targetUnknown :: [targetDummy] } :: [])
        registryDummy
      = evaluateRules clockMon8 contentHello
        ([] ++ { name := "r", «if» := none, publish := [] ++ [targetDummy] } :: [])
        registryDummy :=
  evaluateRules_skips_unknown_adapter clockMon8 contentHello registryDummy "r" none
    targetUnknown [] [targetDummy] [] [] (by decide)
